import Mathlib

/-!
Shallow embedding of the batch-get subsystem (`batchget.go` of the dynamo
package): the `Batch` / `BatchGet` request builders and the `bgIter`
paging iterator with its retry / backoff / pagination state machine.

Conventions of the embedding:
* raw wire items and attribute values are opaque, modelled as `Nat`;
* Go `error` values are modelled by the inductive `Err`; `nil` error is
  `Option.none`;
* Go maps are modelled as association lists; indexing a
  `map[string][]item` returns `[]` for a missing key, as in Go;
* Go nil pointers are `Option.none`; a nil-pointer dereference (a Go
  panic) makes the embedded function return `none` at its outer
  `Option` layer, so `Next` has type `... → Option (Bool × Option Item × bgIter)`
  where the outer `none` means "panicked";
* the transport call `retry(func() { itr.output, err = ...BatchGetItem(itr.input) })`
  is the opaque external collaborator: it is passed to `Next` as an
  oracle `transportFunc` mapping (number of previous transport calls,
  request) to the final (response pointer, error) pair produced once the
  outer retry policy has finished;
* the unmarshal function stored in the iterator is likewise passed as an
  oracle `unmarshalFunc` deciding for each raw item whether decoding
  succeeds; on success the decoded value written to `out` is identified
  with the raw item itself;
* `time.Sleep(itr.backoff.NextBackOff())` is observed through the ghost
  counter `backoffs` (number of backoff sleeps taken), and the requests
  handed to the transport are logged in the ghost field `sentReqs`.
-/

/-- Raw wire-protocol item (opaque to the state machine). -/
abbrev Item := Nat

/-- Attribute value used in keys (opaque to the state machine). -/
abbrev AttrValue := Nat

/-- Go `error` values that appear in this subsystem. -/
inductive Err where
  /-- the `ErrNotFound` sentinel -/
  | notFound
  /-- the `fmt.Errorf("dynamo: batch: ... too many keys.")` validation error -/
  | tooManyKeys
  /-- an opaque transport-level error (post retry policy), tagged by a code -/
  | transportFailure (code : Nat)
  /-- an opaque unmarshal/decode error, tagged by a code -/
  | decodeFailure (code : Nat)
deriving DecidableEq, Repr

/-- The `ErrNotFound` sentinel returned when no results are found. -/
def ErrNotFound : Err := .notFound

/-- One wire key: attribute name/value pairs (`map[string]*dynamodb.AttributeValue`). -/
abbrev KeyMap := List (String × AttrValue)

/-- `dynamodb.KeysAndAttributes`: the per-table slot of a batch-get request. -/
structure KeysAndAttributes where
  Keys : List KeyMap
  ProjectionExpression : Option String
  ConsistentRead : Option Bool
deriving DecidableEq, Repr

/-- `map[string]*dynamodb.KeysAndAttributes` (table name → possibly-nil slot). -/
abbrev RequestItemsMap := List (String × Option KeysAndAttributes)

/-- `dynamodb.BatchGetItemInput`. -/
structure BatchGetItemInput where
  RequestItems : RequestItemsMap
deriving DecidableEq, Repr

/-- `dynamodb.BatchGetItemOutput`. -/
structure BatchGetItemOutput where
  Responses : List (String × List Item)
  UnprocessedKeys : RequestItemsMap
deriving DecidableEq, Repr

/-- Go map indexing `Responses[tableName]`: yields `[]` when absent. -/
def lookupItems (m : List (String × List Item)) (k : String) : List Item :=
  match m.find? (fun p => p.1 == k) with
  | some p => p.2
  | none => []

/-- A dynamo table; only its name matters to this subsystem
(`table.Name()` is the field `name`). -/
structure Table where
  name : String
deriving DecidableEq, Repr

/-- The `Keyed` interface: a hash key value and an optional range key value
(`RangeKey() == nil` is `none`). -/
structure Keyed where
  hashKey : AttrValue
  rangeKey : Option AttrValue
deriving DecidableEq, Repr

/-- Comparison operator attached to a range condition (`dynamo.Equal`). -/
inductive Operator where
  | Equal
deriving DecidableEq, Repr

/-- Modelled from the spec: the repository's per-key lookup descriptor
(type `Query`, defined outside `src/`). Per §4.2 it carries the hash key
name/value, an optional equality condition on the range key, an optional
projection expression and a sticky error. -/
structure Query where
  hashKeyName : String
  hashValue : AttrValue
  rangeKeyName : String
  rangeOp : Option Operator
  rangeValue : Option AttrValue
  projection : String
  err : Option Err
deriving DecidableEq, Repr

/-- Modelled from the spec: `table.Get(hashKeyName, hashValue)` builds a
fresh per-key lookup descriptor with no range condition, no projection
and no error. -/
def Table.Get (_table : Table) (name : String) (v : AttrValue) : Query :=
  { hashKeyName := name, hashValue := v, rangeKeyName := "", rangeOp := none,
    rangeValue := none, projection := "", err := none }

/-- Modelled from the spec: `get.Range(name, Equal, v)` attaches an equality
condition on the range key (§4.2; no error condition is specified for it). -/
def Query.Range (q : Query) (name : String) (op : Operator) (v : AttrValue) : Query :=
  { q with rangeKeyName := name, rangeOp := some op, rangeValue := some v }

/-- Modelled from the spec: `get.Project(expr)` stores the projection
expression on the descriptor (§4.2; no error condition is specified). -/
def Query.Project (q : Query) (expr : String) : Query :=
  { q with projection := expr }

/-- Modelled from the spec (§6): the wire key of one descriptor — the hash
key pair followed by the range key pair when a range condition is attached. -/
def Query.keys (q : Query) : KeyMap :=
  (q.hashKeyName, q.hashValue) ::
    (match q.rangeValue with
     | some rv => [(q.rangeKeyName, rv)]
     | none => [])

/-- Modelled from the spec (§4.2, §6): `get.keysAndAttribs()` wraps the
descriptor's single wire key; projection and consistency are applied once
at the merged-request level by `BatchGet.input`, not here. -/
def Query.keysAndAttribs (q : Query) : KeysAndAttributes :=
  { Keys := [q.keys], ProjectionExpression := none, ConsistentRead := none }

/-- `Batch` stores the names of the hash key and range key for creating new
batches. -/
structure Batch where
  table : Table
  hashKey : String
  rangeKey : String
  err : Option Err
deriving DecidableEq, Repr

/-- `Table.Batch`: creates a new batch with the given hash key name, and
range key name if provided; three or more names record the sticky
"too many keys" validation error. -/
def Table.Batch (table : Table) (hashAndRangeKeyName : List String) : Batch :=
  match hashAndRangeKeyName with
  | [] => { table := table, hashKey := "", rangeKey := "", err := none }
  | [h] => { table := table, hashKey := h, rangeKey := "", err := none }
  | [h, r] => { table := table, hashKey := h, rangeKey := r, err := none }
  | _ => { table := table, hashKey := "", rangeKey := "", err := some .tooManyKeys }

/-- `BatchGet` is a BatchGetItem operation. -/
structure BatchGet where
  batch : Batch
  reqs : List Query
  projection : String
  consistent : Bool
  err : Option Err
deriving DecidableEq, Repr

/-- `bg.setError(err)`: first error wins. -/
def BatchGet.setError (bg : BatchGet) (e : Option Err) : BatchGet :=
  if bg.err = none then { bg with err := e } else bg

/-- `bg.add(keys)`: for each key build a per-key descriptor via
`table.Get`; when a range key name is configured and the key supplies a
range value, attach the equality range condition and fold the
descriptor's error into the sticky error. -/
def BatchGet.add (bg : BatchGet) (keys : List Keyed) : BatchGet :=
  keys.foldl
    (fun bg key =>
      let get := bg.batch.table.Get bg.batch.hashKey key.hashKey
      match key.rangeKey with
      | some rk =>
        if bg.batch.rangeKey ≠ "" then
          let get := get.Range bg.batch.rangeKey .Equal rk
          let bg := bg.setError get.err
          { bg with reqs := bg.reqs ++ [get] }
        else
          { bg with reqs := bg.reqs ++ [get] }
      | none => { bg with reqs := bg.reqs ++ [get] })
    bg

/-- `Batch.Get`: creates a new batch get item request with the given keys,
inheriting the batch's sticky error. -/
def Batch.Get (b : Batch) (keys : List Keyed) : BatchGet :=
  BatchGet.add { batch := b, reqs := [], projection := "", consistent := false, err := b.err } keys

/-- `bg.And(keys)`: adds more keys to be gotten. -/
def BatchGet.And (bg : BatchGet) (keys : List Keyed) : BatchGet :=
  bg.add keys

/-- `bg.Consistent(on)`: sets the strongly-consistent-read flag. -/
def BatchGet.Consistent (bg : BatchGet) (flag : Bool) : BatchGet :=
  { bg with consistent := flag }

/-- `bg.input()`: merges all accumulated per-key descriptors into one
`BatchGetItemInput` for the batch's table. The per-table slot `kas`
starts as the Go nil pointer (`none`); the first descriptor initialises
it, later descriptors append their single key. When there is no
descriptor at all, the slot stays nil: setting a projection expression
(or the consistent-read flag) then dereferences the nil slot — a Go
panic, returned here as `none`. -/
def BatchGet.input (bg : BatchGet) : Option BatchGetItemInput :=
  -- (the `if bg.projection != ""` loop re-projecting each descriptor is
  --  observably a no-op here: `Project` stores the expression and, as
  --  modelled from the spec, yields no error to fold into `bg.err`)
  let kas : Option KeysAndAttributes :=
    bg.reqs.foldl
      (fun acc get =>
        match acc with
        | none => some get.keysAndAttribs
        | some k => some { k with Keys := k.Keys ++ [get.keys] })
      none
  match kas with
  | some k =>
    let k := if bg.projection ≠ "" then { k with ProjectionExpression := some bg.projection } else k
    let k := if bg.consistent then { k with ConsistentRead := some true } else k
    some { RequestItems := [(bg.batch.table.name, some k)] }
  | none =>
    if bg.projection ≠ "" then
      none          -- kas.ProjectionExpression = &bg.projection on a nil kas: panic
    else if bg.consistent then
      none          -- kas.ConsistentRead = &bg.consistent on a nil kas: panic
    else
      some { RequestItems := [(bg.batch.table.name, none)] }

/-- Oracle for the transport collaborator: maps (number of transport calls
already made, request) to the (response pointer, error) pair left behind
by `retry(func() { itr.output, err = client.BatchGetItem(itr.input) })`
once the outer retry policy has finished. -/
abbrev transportFunc := Nat → BatchGetItemInput → Option BatchGetItemOutput × Option Err

/-- Oracle for the unmarshal collaborator: `none` means the raw item
decodes into `out` successfully, `some e` is the decode error. -/
abbrev unmarshalFunc := Item → Option Err

/-- `bgIter` is the iterator for Batch Get operations. `backoffs` and
`sentReqs` are ghost observation fields: the number of backoff sleeps
taken, and the log of requests handed to the transport. -/
structure bgIter where
  bg : BatchGet
  input : Option BatchGetItemInput
  output : Option BatchGetItemOutput
  err : Option Err
  idx : Nat
  backoffs : Nat
  sentReqs : List BatchGetItemInput
deriving DecidableEq, Repr

/-- `newBGIter(bg, fn, err)`: fresh iterator (the unmarshal function `fn`
is supplied at each `Next` call site in this embedding). -/
def newBGIter (bg : BatchGet) (e : Option Err) : bgIter :=
  { bg := bg, input := none, output := none, err := e, idx := 0,
    backoffs := 0, sentReqs := [] }

/-- Lines 197–213 of `bgIter.Next`: perform the (retry-wrapped) transport
call on request `inp`, store response and error, then inspect
`itr.output.Responses[tableName]` — a nil response pointer panics here —
and either record `ErrNotFound` / the terminal state, or decode
`items[itr.idx]` into `out` (an out-of-range index panics). -/
def bgIter.fetch (t : transportFunc) (u : unmarshalFunc) (itr : bgIter)
    (inp : BatchGetItemInput) : Option (Bool × Option Item × bgIter) :=
  let r := t itr.sentReqs.length inp
  let itr := { itr with
    output := r.1
    err := r.2
    sentReqs := itr.sentReqs ++ [inp] }
  match r.1 with
  | none => none    -- itr.output.Responses on a nil output: panic
  | some out1 =>
    let items := lookupItems out1.Responses itr.bg.batch.table.name
    if itr.err ≠ none ∨ items.length = 0 then
      if itr.idx = 0 then
        some (false, none, { itr with err := some ErrNotFound })
      else
        some (false, none, itr)
    else
      if h : itr.idx < items.length then
        let item := items.get ⟨itr.idx, h⟩
        let e := u item
        some (e = none, if e = none then some item else none,
              { itr with err := e, idx := itr.idx + 1 })
      else
        none        -- items[itr.idx] out of range: panic

/-- Lines 180–182 of `bgIter.Next`: the pending request, building it via
`bg.input()` when it has not been built yet (`none` when `input()`
panics). -/
def bgIter.ensureInput (itr : bgIter) : Option BatchGetItemInput :=
  match itr.input with
  | some inp => some inp
  | none => itr.bg.input

/-- `bgIter.Next(out)`: tries to unmarshal the next result into `out`,
returning `(succeeded, item written to out, new iterator state)`; the
outer `none` is a Go panic. Mirrors lines 162–213 of the source:
terminal-error check, buffered-results path, lazy `input()` build,
exhaustion / unprocessed-keys-with-backoff transition, then `fetch`. -/
def bgIter.Next (t : transportFunc) (u : unmarshalFunc) (itr : bgIter) :
    Option (Bool × Option Item × bgIter) :=
  -- stop if we have an error
  if itr.err ≠ none then
    some (false, none, itr)
  else
    -- can we use results we already have?
    let buffered : Option (Bool × Option Item × bgIter) :=
      match itr.output with
      | some out0 =>
        let items := lookupItems out0.Responses itr.bg.batch.table.name
        if h : itr.idx < items.length then
          let item := items.get ⟨itr.idx, h⟩
          let e := u item
          some (e = none, if e = none then some item else none,
                { itr with err := e, idx := itr.idx + 1 })
        else none
      | none => none
    match buffered with
    | some r => some r
    | none =>
      -- new bg: build the input lazily; a panic inside input() propagates
      match itr.ensureInput with
      | none => none
      | some inp =>
        let itr := { itr with input := some inp }
        match itr.output with
        | some out0 =>
          -- have we exhausted all results?
          if out0.UnprocessedKeys.length = 0 then
            some (false, none, itr)
          else
            -- prepare next request, reset index, sleep for the backoff
            let inp2 : BatchGetItemInput := { RequestItems := out0.UnprocessedKeys }
            bgIter.fetch t u
              { itr with input := some inp2, idx := 0, backoffs := itr.backoffs + 1 }
              inp2
        | none => bgIter.fetch t u itr inp

/-- `itr.Err()`: the error encountered, if any. -/
def bgIter.Err (itr : bgIter) : Option Err :=
  itr.err

/-- Outcome of driving the iterator to completion. -/
inductive RunOutcome where
  | done (items : List Item) (err : Option Err)
  | panicked
  | fuelOut
deriving DecidableEq, Repr

/-- The loop of `BatchGet.All`: `for iter.Next(out) {}` followed by
`iter.Err()`, with fuel bounding the number of `Next` calls (the source
loop itself is unbounded). Successful `Next` calls append the item
written to the scratch slot to the accumulator, exactly as
`unmarshalAppend` grows `out`. -/
def bgIter.runAll (t : transportFunc) (u : unmarshalFunc) :
    Nat → bgIter → List Item → RunOutcome
  | 0, _, _ => .fuelOut
  | fuel + 1, itr, acc =>
    match bgIter.Next t u itr with
    | none => .panicked
    | some (true, em, itr') => bgIter.runAll t u fuel itr' (acc ++ em.toList)
    | some (false, _, itr') => .done acc itr'.Err

/-- `bg.All(out)`: executes the request and unmarshals all results into
`out` via a fresh iterator seeded with the batch's sticky error. -/
def BatchGet.All (t : transportFunc) (u : unmarshalFunc) (fuel : Nat)
    (bg : BatchGet) : RunOutcome :=
  bgIter.runAll t u fuel (newBGIter bg bg.err) []

/-! ### Step lemmas for the iterator state machine -/

/-- Absorbing state: with a terminal error set, `Next` returns false at
once and leaves the iterator untouched (lines 163–166). -/
theorem next_err_absorb (t : transportFunc) (u : unmarshalFunc) (itr : bgIter)
    (h : itr.err ≠ none) :
    bgIter.Next t u itr = some (false, none, itr) := by
  simp [bgIter.Next, h]

/-- Buffered path (lines 171–177): with no terminal error and the cursor
inside the current page, `Next` decodes `items[idx]` and advances the
cursor, making no transport call. -/
theorem next_buffered (t : transportFunc) (u : unmarshalFunc) (itr : bgIter)
    (out0 : BatchGetItemOutput) (items : List Item)
    (hne : itr.err = none) (hout : itr.output = some out0)
    (hitems : lookupItems out0.Responses itr.bg.batch.table.name = items)
    (hlt : itr.idx < items.length) :
    bgIter.Next t u itr =
      some (decide (u (items.get ⟨itr.idx, hlt⟩) = none),
            if u (items.get ⟨itr.idx, hlt⟩) = none
              then some (items.get ⟨itr.idx, hlt⟩) else none,
            { itr with err := u (items.get ⟨itr.idx, hlt⟩), idx := itr.idx + 1 }) := by
  simp [bgIter.Next, hne, hout, hitems, hlt]

/-- Clean exhaustion (lines 184–187): page consumed and no unprocessed
keys — `Next` returns false with no error; the only state change is the
(possibly just-built) pending request. -/
theorem next_exhausted (t : transportFunc) (u : unmarshalFunc) (itr : bgIter)
    (out0 : BatchGetItemOutput) (inp : BatchGetItemInput)
    (hne : itr.err = none) (hout : itr.output = some out0)
    (hidx : ¬ itr.idx < (lookupItems out0.Responses itr.bg.batch.table.name).length)
    (hinp : itr.ensureInput = some inp)
    (hunp : out0.UnprocessedKeys.length = 0) :
    bgIter.Next t u itr = some (false, none, { itr with input := some inp }) := by
  simp [bgIter.Next, hne, hout, hidx, hinp, hunp]

/-- Unprocessed-keys transition (lines 189–195): page consumed with
unprocessed keys left — `Next` replaces the pending request by exactly
the unprocessed keys, resets the cursor to 0, takes one backoff sleep,
and re-fetches. -/
theorem next_refetch (t : transportFunc) (u : unmarshalFunc) (itr : bgIter)
    (out0 : BatchGetItemOutput) (inp : BatchGetItemInput)
    (hne : itr.err = none) (hout : itr.output = some out0)
    (hidx : ¬ itr.idx < (lookupItems out0.Responses itr.bg.batch.table.name).length)
    (hinp : itr.ensureInput = some inp)
    (hunp : out0.UnprocessedKeys ≠ []) :
    bgIter.Next t u itr =
      bgIter.fetch t u
        { itr with input := some { RequestItems := out0.UnprocessedKeys }, idx := 0,
                   backoffs := itr.backoffs + 1 }
        { RequestItems := out0.UnprocessedKeys } := by
  have hlen : ¬ out0.UnprocessedKeys.length = 0 := by
    simpa [List.length_eq_zero] using hunp
  simp [bgIter.Next, hne, hout, hidx, hinp, hlen]

/-- First fetch (line 180 onward with no page yet): `Next` builds the
request if needed and fetches with it. -/
theorem next_firstfetch (t : transportFunc) (u : unmarshalFunc) (itr : bgIter)
    (inp : BatchGetItemInput)
    (hne : itr.err = none) (hout : itr.output = none)
    (hinp : itr.ensureInput = some inp) :
    bgIter.Next t u itr = bgIter.fetch t u { itr with input := some inp } inp := by
  simp [bgIter.Next, hne, hout, hinp]

/-- A panic inside the lazy `input()` build propagates out of `Next`. -/
theorem next_input_panic (t : transportFunc) (u : unmarshalFunc) (itr : bgIter)
    (hne : itr.err = none) (hout : itr.output = none)
    (hinp : itr.ensureInput = none) :
    bgIter.Next t u itr = none := by
  simp [bgIter.Next, hne, hout, hinp]

/-- Line 203: a nil response pointer after the (retried) transport call is
dereferenced — `fetch` panics. -/
theorem fetch_nil_output_panic (t : transportFunc) (u : unmarshalFunc) (itr : bgIter)
    (inp : BatchGetItemInput) (e : Option Err)
    (h : t itr.sentReqs.length inp = (none, e)) :
    bgIter.fetch t u itr inp = none := by
  simp [bgIter.fetch, h]

/-- Lines 203–208 with the cursor at 0: a transport error or an empty
item list makes `fetch` record `ErrNotFound` and return false. -/
theorem fetch_notfound (t : transportFunc) (u : unmarshalFunc) (itr : bgIter)
    (inp : BatchGetItemInput) (out1 : BatchGetItemOutput) (e : Option Err)
    (h : t itr.sentReqs.length inp = (some out1, e))
    (hbad : e ≠ none ∨ lookupItems out1.Responses itr.bg.batch.table.name = [])
    (hidx : itr.idx = 0) :
    bgIter.fetch t u itr inp =
      some (false, none,
        { itr with output := some out1, err := some ErrNotFound,
                   sentReqs := itr.sentReqs ++ [inp] }) := by
  rcases hbad with hbad | hbad
  · simp [bgIter.fetch, h, hbad, hidx]
  · simp [bgIter.fetch, h, hbad, hidx]

/-- Lines 210–212 with the cursor at 0: a successful transport call with a
non-empty item list decodes the first item of the new page. -/
theorem fetch_decode (t : transportFunc) (u : unmarshalFunc) (itr : bgIter)
    (inp : BatchGetItemInput) (out1 : BatchGetItemOutput) (items : List Item)
    (h : t itr.sentReqs.length inp = (some out1, none))
    (hitems : lookupItems out1.Responses itr.bg.batch.table.name = items)
    (hpos : 0 < items.length)
    (hidx : itr.idx = 0) :
    bgIter.fetch t u itr inp =
      some (decide (u (items.get ⟨0, hpos⟩) = none),
            if u (items.get ⟨0, hpos⟩) = none then some (items.get ⟨0, hpos⟩) else none,
            { itr with output := some out1, err := u (items.get ⟨0, hpos⟩), idx := 1,
                       sentReqs := itr.sentReqs ++ [inp] }) := by
  have hz : ¬ items.length = 0 := by omega
  simp [bgIter.fetch, h, hitems, hz, hidx, hpos]

/-- Whatever `fetch` returns (when it does not panic), the state has
logged exactly one more transport request, namely the one passed in, and
has taken no backoff sleep. -/
theorem fetch_transcript (t : transportFunc) (u : unmarshalFunc) (itr : bgIter)
    (inp : BatchGetItemInput) (b : Bool) (em : Option Item) (itr' : bgIter)
    (h : bgIter.fetch t u itr inp = some (b, em, itr')) :
    itr'.sentReqs = itr.sentReqs ++ [inp] ∧ itr'.backoffs = itr.backoffs := by
  unfold bgIter.fetch at h
  rcases hr : t itr.sentReqs.length inp with ⟨o, e⟩
  rw [hr] at h
  match o with
  | none => simp at h
  | some out1 =>
    simp only [] at h
    split at h
    · split at h <;>
      · simp only [Option.some.injEq, Prod.mk.injEq] at h
        obtain ⟨h1, h2, h3⟩ := h
        subst h3
        exact ⟨rfl, rfl⟩
    · split at h
      · simp only [Option.some.injEq, Prod.mk.injEq] at h
        obtain ⟨h1, h2, h3⟩ := h
        subst h3
        exact ⟨rfl, rfl⟩
      · simp at h

/-- When the pending request is already set, re-setting it to the same
value leaves the iterator unchanged. -/
theorem set_input_self (itr : bgIter) (inp : BatchGetItemInput) (h : itr.input = some inp) :
    ({ itr with input := some inp } : bgIter) = itr := by
  cases itr
  simp_all

/-! ### Claims -/

/-- C5: if the very first fetched page contains zero items, the first call
to `Next` on a fresh iterator returns false and `Err()` returns the
distinguished `ErrNotFound` sentinel. -/
theorem c5_first_page_empty_is_notfound (bg : BatchGet) (t : transportFunc)
    (u : unmarshalFunc) (inp : BatchGetItemInput) (out1 : BatchGetItemOutput)
    (hbg : bg.err = none)
    (hinp : bg.input = some inp)
    (ht : t 0 inp = (some out1, none))
    (hempty : lookupItems out1.Responses bg.batch.table.name = []) :
    ∃ itr' : bgIter,
      bgIter.Next t u (newBGIter bg bg.err) = some (false, none, itr') ∧
      itr'.Err = some ErrNotFound := by
  set itr0 := newBGIter bg bg.err with hitr0
  have hne : itr0.err = none := by simp [hitr0, newBGIter, hbg]
  have hout : itr0.output = none := rfl
  have hens : itr0.ensureInput = some inp := by
    simp [hitr0, newBGIter, bgIter.ensureInput, hinp]
  have h1 := next_firstfetch t u itr0 inp hne hout hens
  have h2 := fetch_notfound t u { itr0 with input := some inp } inp out1 none
    (by simpa [hitr0, newBGIter] using ht) (Or.inr (by simpa [hitr0, newBGIter] using hempty))
    (by simp [hitr0, newBGIter])
  exact ⟨_, h1.trans h2, rfl⟩

/-- C5 witness: a one-key batch against a transport whose only page has no
items. -/
theorem c5_witness :
    ∃ itr' : bgIter,
      bgIter.Next (fun _ _ => (some { Responses := [("t", [])], UnprocessedKeys := [] }, none))
        (fun _ => none)
        (newBGIter ((Table.Batch { name := "t" } ["ID"]).Get [{ hashKey := 1, rangeKey := none }])
          ((Table.Batch { name := "t" } ["ID"]).Get [{ hashKey := 1, rangeKey := none }]).err) =
        some (false, none, itr') ∧
      itr'.Err = some ErrNotFound :=
  c5_first_page_empty_is_notfound
    ((Table.Batch { name := "t" } ["ID"]).Get [{ hashKey := 1, rangeKey := none }])
    (fun _ _ => (some { Responses := [("t", [])], UnprocessedKeys := [] }, none))
    (fun _ => none)
    ⟨[("t", some ⟨[[("ID", 1)]], none, none⟩)]⟩
    ⟨[("t", [])], []⟩
    (by decide) (by decide) rfl (by decide)

/-- C10: a `BatchGet` holding zero accumulated keys produces a request
whose single table entry is the nil key descriptor; if additionally a
non-empty projection expression is set, `input()` dereferences that nil
descriptor and panics instead of returning a request or an error. -/
theorem c10_zero_keys_nil_descriptor (b : Batch) (p : String) (hp : p ≠ "") :
    (Batch.Get b []).input = some { RequestItems := [(b.table.name, none)] } ∧
    ({ Batch.Get b [] with projection := p } : BatchGet).input = none := by
  constructor
  · simp [Batch.Get, BatchGet.add, BatchGet.input]
  · simp [Batch.Get, BatchGet.add, BatchGet.input, hp]

/-- C10 witness: the concrete zero-key batch get. -/
theorem c10_witness :
    (Batch.Get (Table.Batch { name := "t" } ["ID"]) []).input =
      some { RequestItems := [("t", none)] } ∧
    ({ Batch.Get (Table.Batch { name := "t" } ["ID"]) [] with projection := "p" } : BatchGet).input
      = none :=
  c10_zero_keys_nil_descriptor (Table.Batch { name := "t" } ["ID"]) "p" (by decide)

/-- C2: when a fetched page leaves unprocessed keys, `Next` replaces the
pending request by exactly those unprocessed keys, resets the cursor to
0, takes one backoff sleep, and then re-fetches; every non-panicking
outcome has logged exactly that request to the transport. -/
theorem c2_refetch_exactly_unprocessed (t : transportFunc) (u : unmarshalFunc)
    (itr : bgIter) (out0 : BatchGetItemOutput) (inp : BatchGetItemInput)
    (hne : itr.err = none) (hout : itr.output = some out0)
    (hidx : ¬ itr.idx < (lookupItems out0.Responses itr.bg.batch.table.name).length)
    (hinp : itr.ensureInput = some inp)
    (hunp : out0.UnprocessedKeys ≠ []) :
    bgIter.Next t u itr =
      bgIter.fetch t u
        { itr with input := some { RequestItems := out0.UnprocessedKeys }, idx := 0,
                   backoffs := itr.backoffs + 1 }
        { RequestItems := out0.UnprocessedKeys } ∧
    (∀ b em itr', bgIter.Next t u itr = some (b, em, itr') →
        itr'.sentReqs = itr.sentReqs ++ [{ RequestItems := out0.UnprocessedKeys }] ∧
        itr'.backoffs = itr.backoffs + 1) := by
  have h := next_refetch t u itr out0 inp hne hout hidx hinp hunp
  refine ⟨h, fun b em itr' hn => ?_⟩
  rw [h] at hn
  have h2 := fetch_transcript t u _ _ b em itr' hn
  simpa using h2

/-- C2 witness: a consumed one-item page whose response marked one key
unprocessed. -/
theorem c2_witness :
    bgIter.Next (fun _ _ => (some ⟨[("t", [20])], []⟩, none)) (fun _ => none)
      ⟨(Table.Batch ⟨"t"⟩ ["ID"]).Get [⟨1, none⟩, ⟨2, none⟩],
        some ⟨[("t", some ⟨[[("ID", 1)], [("ID", 2)]], none, none⟩)]⟩,
        some ⟨[("t", [10])], [("t", some ⟨[[("ID", 2)]], none, none⟩)]⟩,
        none, 1, 0, [⟨[("t", some ⟨[[("ID", 1)], [("ID", 2)]], none, none⟩)]⟩]⟩ =
      bgIter.fetch (fun _ _ => (some ⟨[("t", [20])], []⟩, none)) (fun _ => none)
        ⟨(Table.Batch ⟨"t"⟩ ["ID"]).Get [⟨1, none⟩, ⟨2, none⟩],
          some ⟨[("t", some ⟨[[("ID", 2)]], none, none⟩)]⟩,
          some ⟨[("t", [10])], [("t", some ⟨[[("ID", 2)]], none, none⟩)]⟩,
          none, 0, 1, [⟨[("t", some ⟨[[("ID", 1)], [("ID", 2)]], none, none⟩)]⟩]⟩
        ⟨[("t", some ⟨[[("ID", 2)]], none, none⟩)]⟩ ∧
    (∀ b em itr',
      bgIter.Next (fun _ _ => (some ⟨[("t", [20])], []⟩, none)) (fun _ => none)
        ⟨(Table.Batch ⟨"t"⟩ ["ID"]).Get [⟨1, none⟩, ⟨2, none⟩],
          some ⟨[("t", some ⟨[[("ID", 1)], [("ID", 2)]], none, none⟩)]⟩,
          some ⟨[("t", [10])], [("t", some ⟨[[("ID", 2)]], none, none⟩)]⟩,
          none, 1, 0, [⟨[("t", some ⟨[[("ID", 1)], [("ID", 2)]], none, none⟩)]⟩]⟩ =
        some (b, em, itr') →
      itr'.sentReqs = [⟨[("t", some ⟨[[("ID", 1)], [("ID", 2)]], none, none⟩)]⟩,
                       ⟨[("t", some ⟨[[("ID", 2)]], none, none⟩)]⟩] ∧
      itr'.backoffs = 0 + 1) :=
  c2_refetch_exactly_unprocessed _ _ _
    ⟨[("t", [10])], [("t", some ⟨[[("ID", 2)]], none, none⟩)]⟩
    ⟨[("t", some ⟨[[("ID", 1)], [("ID", 2)]], none, none⟩)]⟩
    rfl rfl (by decide) rfl (by decide)

/-- C4 counterexample: a first page delivers one item and marks a key
unprocessed; the follow-up page returns zero items. The claim says `Err()`
does not become the NotFound sentinel then — but the cursor was reset to
0 before the re-fetch, so the code records `ErrNotFound` anyway. -/
theorem c4_counterexample :
    bgIter.runAll
      (fun n _ => (some (if n = 0
          then (⟨[("t", [10])], [("t", some ⟨[[("ID", 2)]], none, none⟩)]⟩ : BatchGetItemOutput)
          else ⟨[("t", [])], []⟩), none))
      (fun _ => none) 4
      (newBGIter ((Table.Batch ⟨"t"⟩ ["ID"]).Get [⟨1, none⟩, ⟨2, none⟩])
        ((Table.Batch ⟨"t"⟩ ["ID"]).Get [⟨1, none⟩, ⟨2, none⟩]).err)
      [] = .done [10] (some ErrNotFound) := by
  decide

/-- C4 amended: a later page that returns zero items IS reinterpreted as
not-found — the cursor is reset to 0 before every re-fetch, so the
`itr.idx == 0` guard fires on every page, and `Err()` becomes the
`ErrNotFound` sentinel even after a page containing items was fetched. -/
theorem c4_later_empty_page_is_notfound (t : transportFunc) (u : unmarshalFunc)
    (itr : bgIter) (out0 out1 : BatchGetItemOutput) (inp : BatchGetItemInput)
    (hne : itr.err = none) (hout : itr.output = some out0)
    (_hfetched : lookupItems out0.Responses itr.bg.batch.table.name ≠ [])
    (hidx : ¬ itr.idx < (lookupItems out0.Responses itr.bg.batch.table.name).length)
    (hinp : itr.ensureInput = some inp)
    (hunp : out0.UnprocessedKeys ≠ [])
    (ht : t itr.sentReqs.length { RequestItems := out0.UnprocessedKeys } = (some out1, none))
    (hempty : lookupItems out1.Responses itr.bg.batch.table.name = []) :
    ∃ itr' : bgIter,
      bgIter.Next t u itr = some (false, none, itr') ∧ itr'.Err = some ErrNotFound := by
  have h1 := next_refetch t u itr out0 inp hne hout hidx hinp hunp
  have h2 := fetch_notfound t u
    { itr with input := some { RequestItems := out0.UnprocessedKeys }, idx := 0,
               backoffs := itr.backoffs + 1 }
    { RequestItems := out0.UnprocessedKeys } out1 none
    (by simpa using ht) (Or.inr (by simpa using hempty)) rfl
  exact ⟨_, h1.trans h2, rfl⟩

/-- C4 amended witness: the concrete scenario of the counterexample, one
step before the empty page is fetched. -/
theorem c4_witness :
    ∃ itr' : bgIter,
      bgIter.Next (fun _ _ => (some ⟨[("t", [])], []⟩, none)) (fun _ => none)
        ⟨(Table.Batch ⟨"t"⟩ ["ID"]).Get [⟨1, none⟩, ⟨2, none⟩],
          some ⟨[("t", some ⟨[[("ID", 1)], [("ID", 2)]], none, none⟩)]⟩,
          some ⟨[("t", [10])], [("t", some ⟨[[("ID", 2)]], none, none⟩)]⟩,
          none, 1, 0, [⟨[("t", some ⟨[[("ID", 1)], [("ID", 2)]], none, none⟩)]⟩]⟩ =
        some (false, none, itr') ∧ itr'.Err = some ErrNotFound :=
  c4_later_empty_page_is_notfound _ _ _
    ⟨[("t", [10])], [("t", some ⟨[[("ID", 2)]], none, none⟩)]⟩
    ⟨[("t", [])], []⟩
    ⟨[("t", some ⟨[[("ID", 1)], [("ID", 2)]], none, none⟩)]⟩
    rfl rfl (by decide) (by decide) rfl (by decide) rfl (by decide)

/-- C1 counterexample: the (retry-wrapped) transport call fails with
`transportFailure 7` while still yielding a response value. The claim says
`Err()` then returns that transport error — but the cursor is 0 at every
transport call, so the code overwrites it with `ErrNotFound`. -/
theorem c1_counterexample :
    bgIter.runAll
      (fun _ _ => (some (⟨[("t", [10])], []⟩ : BatchGetItemOutput), some (Err.transportFailure 7)))
      (fun _ => none) 2
      (newBGIter ((Table.Batch ⟨"t"⟩ ["ID"]).Get [⟨1, none⟩])
        ((Table.Batch ⟨"t"⟩ ["ID"]).Get [⟨1, none⟩]).err)
      [] = .done [] (some ErrNotFound) := by
  decide

/-- C1 amended: when the transport call (outer retry policy exhausted)
returns an error together with a response value, `Next` returns false, no
item is produced, no further item is ever produced (the iterator is a
dead state), but `Err()` reports the `ErrNotFound` sentinel rather than
the transport error, because the cursor is always 0 at the point of a
transport call. (With a nil response the code panics instead — see C9.) -/
theorem c1_transport_error_becomes_notfound (t : transportFunc) (u : unmarshalFunc)
    (itr : bgIter) (out1 : BatchGetItemOutput) (te : Err) (inp : BatchGetItemInput)
    (hne : itr.err = none)
    (hcase :
      (itr.output = none ∧ itr.idx = 0 ∧ itr.ensureInput = some inp ∧
        t itr.sentReqs.length inp = (some out1, some te)) ∨
      (∃ out0, itr.output = some out0 ∧
        ¬ itr.idx < (lookupItems out0.Responses itr.bg.batch.table.name).length ∧
        out0.UnprocessedKeys ≠ [] ∧ itr.ensureInput = some inp ∧
        t itr.sentReqs.length { RequestItems := out0.UnprocessedKeys } = (some out1, some te))) :
    ∃ itr' : bgIter,
      bgIter.Next t u itr = some (false, none, itr') ∧
      itr'.Err = some ErrNotFound ∧
      ∀ t' u', bgIter.Next t' u' itr' = some (false, none, itr') := by
  rcases hcase with ⟨hout, hidx, hens, ht⟩ | ⟨out0, hout, hidx, hunp, hens, ht⟩
  · have h1 := next_firstfetch t u itr inp hne hout hens
    have h2 := fetch_notfound t u { itr with input := some inp } inp out1 (some te)
      (by simpa using ht) (Or.inl (by simp)) (by simpa using hidx)
    refine ⟨_, h1.trans h2, rfl, fun t' u' => next_err_absorb t' u' _ (by simp)⟩
  · have h1 := next_refetch t u itr out0 inp hne hout hidx hens hunp
    have h2 := fetch_notfound t u
      { itr with input := some { RequestItems := out0.UnprocessedKeys }, idx := 0,
                 backoffs := itr.backoffs + 1 }
      { RequestItems := out0.UnprocessedKeys } out1 (some te)
      (by simpa using ht) (Or.inl (by simp)) rfl
    refine ⟨_, h1.trans h2, rfl, fun t' u' => next_err_absorb t' u' _ (by simp)⟩

/-- C1 amended witness: the concrete failing transport of the
counterexample, on the fresh iterator. -/
theorem c1_witness :
    ∃ itr' : bgIter,
      bgIter.Next
        (fun _ _ => (some (⟨[("t", [10])], []⟩ : BatchGetItemOutput), some (Err.transportFailure 7)))
        (fun _ => none)
        (newBGIter ((Table.Batch ⟨"t"⟩ ["ID"]).Get [⟨1, none⟩])
          ((Table.Batch ⟨"t"⟩ ["ID"]).Get [⟨1, none⟩]).err) =
        some (false, none, itr') ∧
      itr'.Err = some ErrNotFound ∧
      ∀ t' u', bgIter.Next t' u' itr' = some (false, none, itr') :=
  c1_transport_error_becomes_notfound _ _ _ ⟨[("t", [10])], []⟩ (Err.transportFailure 7)
    ⟨[("t", some ⟨[[("ID", 1)]], none, none⟩)]⟩ rfl
    (Or.inl ⟨rfl, rfl, rfl, rfl⟩)

/-- `fetch` cannot panic when the transport supplies a response value and
the cursor is 0 (as it is at every reachable call site); its outcome
reports success/failure only through the returned boolean and the stored
error. -/
theorem fetch_no_panic (t : transportFunc) (u : unmarshalFunc) (itr : bgIter)
    (inp : BatchGetItemInput)
    (hresp : (t itr.sentReqs.length inp).1 ≠ none)
    (hidx : itr.idx = 0) :
    ∃ b em itr', bgIter.fetch t u itr inp = some (b, em, itr') ∧
      (b = true → itr'.err = none) ∧ (b = false → em = none) := by
  rcases hr : t itr.sentReqs.length inp with ⟨o, e⟩
  match o, hr with
  | none, hr => rw [hr] at hresp; simp at hresp
  | some out1, hr =>
    by_cases hbad : e ≠ none ∨ lookupItems out1.Responses itr.bg.batch.table.name = []
    · exact ⟨false, none, _, fetch_notfound t u itr inp out1 e hr hbad hidx,
        by simp, by simp⟩
    · push_neg at hbad
      obtain ⟨he, hitems⟩ := hbad
      have hpos : 0 < (lookupItems out1.Responses itr.bg.batch.table.name).length :=
        List.length_pos.mpr hitems
      rw [he] at hr
      have h := fetch_decode t u itr inp out1
        (lookupItems out1.Responses itr.bg.batch.table.name) hr rfl hpos hidx
      refine ⟨_, _, _, h, fun hb => ?_, fun hb => ?_⟩
      · have hu := of_decide_eq_true hb
        simpa using hu
      · have hu := of_decide_eq_false hb
        rw [if_neg hu]

/-- C9 counterexample: on a fresh iterator, the transport fails with an
error and an absent (nil) response. The claim says `Next` captures the
error and never panics — but line 203 dereferences the nil response, so
`Next` panics (the embedded call returns `none`). -/
theorem c9_counterexample :
    bgIter.Next (fun _ _ => (none, some (Err.transportFailure 3))) (fun _ => none)
      (newBGIter ((Table.Batch ⟨"t"⟩ ["ID"]).Get [⟨1, none⟩])
        ((Table.Batch ⟨"t"⟩ ["ID"]).Get [⟨1, none⟩]).err) = none := by
  decide

/-- C9 amended: `Next` never panics and reports failure only through its
boolean result and the stored error, PROVIDED the transport always yields
a response value alongside any error, the lazy request build cannot
itself panic, and (in the never-fetched state) the cursor is 0 — all true
of reachable states with the real AWS client. With an absent response the
code instead dereferences nil and panics. -/
theorem c9_no_panic_with_response (t : transportFunc) (u : unmarshalFunc) (itr : bgIter)
    (hresp : ∀ n inp, (t n inp).1 ≠ none)
    (hbuild : itr.ensureInput ≠ none)
    (hfresh : itr.output = none → itr.idx = 0) :
    ∃ b em itr', bgIter.Next t u itr = some (b, em, itr') ∧
      (b = true → itr'.err = none) ∧ (b = false → em = none) := by
  by_cases herr : itr.err = none
  · rcases hens : itr.ensureInput with _ | inp
    · exact absurd hens hbuild
    · rcases hout : itr.output with _ | out0
      · have hidx := hfresh hout
        have h1 := next_firstfetch t u itr inp herr hout hens
        have h2 := fetch_no_panic t u { itr with input := some inp } inp
          (hresp _ _) (by simpa using hidx)
        obtain ⟨b, em, itr', heq, hb1, hb2⟩ := h2
        exact ⟨b, em, itr', h1.trans heq, hb1, hb2⟩
      · by_cases hlt : itr.idx < (lookupItems out0.Responses itr.bg.batch.table.name).length
        · have h1 := next_buffered t u itr out0 _ herr hout rfl hlt
          refine ⟨_, _, _, h1, fun hb => ?_, fun hb => ?_⟩
          · have hu := of_decide_eq_true hb
            simpa using hu
          · have hu := of_decide_eq_false hb
            rw [if_neg hu]
        · by_cases hunp : out0.UnprocessedKeys.length = 0
          · exact ⟨false, none, _, next_exhausted t u itr out0 inp herr hout hlt hens hunp,
              by simp, by simp⟩
          · have hunp' : out0.UnprocessedKeys ≠ [] := by
              simpa [List.length_eq_zero] using hunp
            have h1 := next_refetch t u itr out0 inp herr hout hlt hens hunp'
            have h2 := fetch_no_panic t u
              { itr with input := some { RequestItems := out0.UnprocessedKeys }, idx := 0,
                         backoffs := itr.backoffs + 1 }
              { RequestItems := out0.UnprocessedKeys } (hresp _ _) rfl
            obtain ⟨b, em, itr', heq, hb1, hb2⟩ := h2
            exact ⟨b, em, itr', h1.trans heq, hb1, hb2⟩
  · exact ⟨false, none, itr, next_err_absorb t u itr herr, by simp, by simp⟩

/-- C9 amended witness: a fresh one-key iterator against a transport that
always yields a response (here: an erroring one with a response value). -/
theorem c9_witness :
    ∃ b em itr',
      bgIter.Next (fun _ _ => (some ⟨[("t", [10])], []⟩, some (Err.transportFailure 5)))
        (fun _ => none)
        (newBGIter ((Table.Batch ⟨"t"⟩ ["ID"]).Get [⟨1, none⟩])
          ((Table.Batch ⟨"t"⟩ ["ID"]).Get [⟨1, none⟩]).err) = some (b, em, itr') ∧
      (b = true → itr'.err = none) ∧ (b = false → em = none) :=
  c9_no_panic_with_response _ _ _
    (fun _ _ => by simp) (by decide) (fun _ => rfl)

/-- `add` preserves an already-recorded sticky error (first error wins). -/
theorem add_err_sticky (keys : List Keyed) (bg : BatchGet) (e : Err)
    (h : bg.err = some e) : (bg.add keys).err = some e := by
  induction keys generalizing bg with
  | nil => simpa [BatchGet.add] using h
  | cons k ks ih =>
    have hstep : ∀ bg' : BatchGet, bg'.err = some e →
        (BatchGet.add bg' [k]).err = some e := by
      intro bg' h'
      rcases k with ⟨hk, _ | rk⟩
      · simpa [BatchGet.add] using h'
      · by_cases hrk : bg'.batch.rangeKey = ""
        · simp [BatchGet.add, hrk, h']
        · simp [BatchGet.add, hrk, BatchGet.setError, h']
    have : BatchGet.add bg (k :: ks) = BatchGet.add (BatchGet.add bg [k]) ks := by
      simp [BatchGet.add]
    rw [this]
    exact ih _ (hstep bg h)

/-- C8: the batch constructor accepts 0, 1 or 2 key names with no error,
assigning hash key then range key in argument order; with 3 or more names
it records the sticky "too many keys" validation error — without
panicking — and that error is surfaced by operations derived from the
batch: `All` on a batch get built from it returns it immediately. -/
theorem c8_batch_key_count (table : Table) (names : List String) (keys : List Keyed)
    (t : transportFunc) (u : unmarshalFunc) (fuel : Nat) (hfuel : 1 ≤ fuel) :
    (names.length = 0 → (table.Batch names).err = none ∧
      (table.Batch names).hashKey = "" ∧ (table.Batch names).rangeKey = "") ∧
    (names.length = 1 → (table.Batch names).err = none ∧
      (table.Batch names).hashKey = names.getD 0 "" ∧ (table.Batch names).rangeKey = "") ∧
    (names.length = 2 → (table.Batch names).err = none ∧
      (table.Batch names).hashKey = names.getD 0 "" ∧
      (table.Batch names).rangeKey = names.getD 1 "") ∧
    (3 ≤ names.length → (table.Batch names).err = some Err.tooManyKeys ∧
      BatchGet.All t u fuel ((table.Batch names).Get keys) =
        .done [] (some Err.tooManyKeys)) := by
  obtain ⟨fuel, rfl⟩ : ∃ f, fuel = f + 1 := ⟨fuel - 1, by omega⟩
  rcases names with _ | ⟨a, _ | ⟨b, _ | ⟨c, rest⟩⟩⟩
  · exact ⟨fun _ => ⟨rfl, rfl, rfl⟩, by simp, by simp, by simp⟩
  · exact ⟨by simp, fun _ => ⟨rfl, rfl, rfl⟩, by simp, by simp [Table.Batch]⟩
  · exact ⟨by simp, by simp, fun _ => ⟨rfl, rfl, rfl⟩, by simp [Table.Batch]⟩
  · refine ⟨by simp, by simp, by simp, fun _ => ⟨rfl, ?_⟩⟩
    have herr : ((Table.Batch table (a :: b :: c :: rest)).Get keys).err =
        some Err.tooManyKeys :=
      add_err_sticky keys _ Err.tooManyKeys rfl
    unfold BatchGet.All bgIter.runAll
    rw [next_err_absorb t u _ (by simp [newBGIter, herr])]
    simp [bgIter.Err, newBGIter, herr]

/-- C8 witness: three key names on a concrete table, with one key and one
unit of fuel. -/
theorem c8_witness :
    ((["a", "b", "c"] : List String).length = 0 →
      ((Table.Batch ⟨"t"⟩ ["a", "b", "c"]).err = none ∧
        (Table.Batch ⟨"t"⟩ ["a", "b", "c"]).hashKey = "" ∧
        (Table.Batch ⟨"t"⟩ ["a", "b", "c"]).rangeKey = "")) ∧
    ((["a", "b", "c"] : List String).length = 1 →
      ((Table.Batch ⟨"t"⟩ ["a", "b", "c"]).err = none ∧
        (Table.Batch ⟨"t"⟩ ["a", "b", "c"]).hashKey = ["a", "b", "c"].getD 0 "" ∧
        (Table.Batch ⟨"t"⟩ ["a", "b", "c"]).rangeKey = "")) ∧
    ((["a", "b", "c"] : List String).length = 2 →
      ((Table.Batch ⟨"t"⟩ ["a", "b", "c"]).err = none ∧
        (Table.Batch ⟨"t"⟩ ["a", "b", "c"]).hashKey = ["a", "b", "c"].getD 0 "" ∧
        (Table.Batch ⟨"t"⟩ ["a", "b", "c"]).rangeKey = ["a", "b", "c"].getD 1 "")) ∧
    (3 ≤ (["a", "b", "c"] : List String).length →
      ((Table.Batch ⟨"t"⟩ ["a", "b", "c"]).err = some Err.tooManyKeys ∧
        BatchGet.All (fun _ _ => (some ⟨[("t", [10])], []⟩, none)) (fun _ => none) 1
          ((Table.Batch ⟨"t"⟩ ["a", "b", "c"]).Get [⟨1, none⟩]) =
          .done [] (some Err.tooManyKeys))) :=
  c8_batch_key_count ⟨"t"⟩ ["a", "b", "c"] [⟨1, none⟩]
    (fun _ _ => (some ⟨[("t", [10])], []⟩, none)) (fun _ => none) 1 (by decide)

/-- A panic inside the lazy `input()` build also propagates when a
(consumed) page is present. -/
theorem next_input_panic_paged (t : transportFunc) (u : unmarshalFunc) (itr : bgIter)
    (out0 : BatchGetItemOutput)
    (hne : itr.err = none) (hout : itr.output = some out0)
    (hidx : ¬ itr.idx < (lookupItems out0.Responses itr.bg.batch.table.name).length)
    (hinp : itr.ensureInput = none) :
    bgIter.Next t u itr = none := by
  simp [bgIter.Next, hne, hout, hidx, hinp]

/-- When `fetch` is entered with the cursor at 0 (as at every reachable
call site) and returns false, a terminal error has been recorded. -/
theorem fetch_false_inv (t : transportFunc) (u : unmarshalFunc) (itr : bgIter)
    (inp : BatchGetItemInput) (em : Option Item) (itr₁ : bgIter)
    (hidx : itr.idx = 0)
    (h : bgIter.fetch t u itr inp = some (false, em, itr₁)) :
    itr₁.err ≠ none := by
  rcases hr : t itr.sentReqs.length inp with ⟨o, e⟩
  match o, hr with
  | none, hr =>
    rw [fetch_nil_output_panic t u itr inp e hr] at h
    exact absurd h (by simp)
  | some out1, hr =>
    by_cases hbad : e ≠ none ∨ lookupItems out1.Responses itr.bg.batch.table.name = []
    · rw [fetch_notfound t u itr inp out1 e hr hbad hidx] at h
      simp only [Option.some.injEq, Prod.mk.injEq] at h
      obtain ⟨-, -, hrec⟩ := h
      rw [← hrec]
      simp [ErrNotFound]
    · push_neg at hbad
      obtain ⟨he, hitems⟩ := hbad
      have hpos : 0 < (lookupItems out1.Responses itr.bg.batch.table.name).length :=
        List.length_pos.mpr hitems
      rw [he] at hr
      rw [fetch_decode t u itr inp out1
        (lookupItems out1.Responses itr.bg.batch.table.name) hr rfl hpos hidx] at h
      simp only [Option.some.injEq, Prod.mk.injEq] at h
      obtain ⟨hb, -, hrec⟩ := h
      have hu := of_decide_eq_false hb
      rw [← hrec]
      simpa using hu

/-- C6: once `Next` has returned false, every further call returns false
with no item, leaves the iterator state — hence `Err()` and the transport
request log — completely unchanged, and therefore never re-attempts a
transport call (idempotent termination). The hypothesis `hfresh` is the
reachable-state invariant that the cursor is 0 before the first fetch. -/
theorem c6_idempotent_termination (t : transportFunc) (u : unmarshalFunc)
    (itr : bgIter) (em : Option Item) (itr₁ : bgIter)
    (hfresh : itr.output = none → itr.idx = 0)
    (h : bgIter.Next t u itr = some (false, em, itr₁)) :
    ∀ t' u', bgIter.Next t' u' itr₁ = some (false, none, itr₁) := by
  by_cases herr : itr.err = none
  · rcases hout : itr.output with _ | out0
    · have hidx := hfresh hout
      rcases hens : itr.ensureInput with _ | inp
      · rw [next_input_panic t u itr herr hout hens] at h
        exact absurd h (by simp)
      · rw [next_firstfetch t u itr inp herr hout hens] at h
        have hne := fetch_false_inv t u ({ itr with input := some inp }) inp em itr₁ hidx h
        exact fun t' u' => next_err_absorb t' u' itr₁ hne
    · by_cases hlt : itr.idx < (lookupItems out0.Responses itr.bg.batch.table.name).length
      · rw [next_buffered t u itr out0 _ herr hout rfl hlt] at h
        simp only [Option.some.injEq, Prod.mk.injEq] at h
        obtain ⟨hb, -, hrec⟩ := h
        have hu := of_decide_eq_false hb
        intro t' u'
        apply next_err_absorb
        rw [← hrec]
        simpa using hu
      · rcases hens : itr.ensureInput with _ | inp
        · rw [next_input_panic_paged t u itr out0 herr hout hlt hens] at h
          exact absurd h (by simp)
        · by_cases hunp : out0.UnprocessedKeys.length = 0
          · rw [next_exhausted t u itr out0 inp herr hout hlt hens hunp] at h
            simp only [Option.some.injEq, Prod.mk.injEq] at h
            obtain ⟨-, -, hrec⟩ := h
            subst hrec
            intro t' u'
            have hstep := next_exhausted t' u'
              ({ itr with input := some inp } : bgIter) out0 inp
              herr hout hlt rfl hunp
            rwa [set_input_self ({ itr with input := some inp }) inp rfl] at hstep
          · have hunp' : out0.UnprocessedKeys ≠ [] := by
              simpa [List.length_eq_zero] using hunp
            rw [next_refetch t u itr out0 inp herr hout hlt hens hunp'] at h
            have hne := fetch_false_inv t u _ _ em itr₁ rfl h
            exact fun t' u' => next_err_absorb t' u' itr₁ hne
  · rw [next_err_absorb t u itr herr] at h
    simp only [Option.some.injEq, Prod.mk.injEq] at h
    obtain ⟨-, -, hrec⟩ := h
    subst hrec
    exact fun t' u' => next_err_absorb t' u' itr herr

/-- C6 witness: an iterator that has just returned false after clean
exhaustion keeps returning false, unchanged, against any further
transport/unmarshal behavior (here a transport that would offer more
items and an unmarshal that would fail). -/
theorem c6_witness :
    bgIter.Next (fun _ _ => (some ⟨[("t", [99])], []⟩, none))
      (fun _ => some (Err.decodeFailure 1))
      ⟨(Table.Batch ⟨"t"⟩ ["ID"]).Get [⟨1, none⟩],
        some ⟨[("t", some ⟨[[("ID", 1)]], none, none⟩)]⟩,
        some ⟨[("t", [10])], []⟩, none, 1, 0,
        [⟨[("t", some ⟨[[("ID", 1)]], none, none⟩)]⟩]⟩ =
      some (false, none,
        ⟨(Table.Batch ⟨"t"⟩ ["ID"]).Get [⟨1, none⟩],
          some ⟨[("t", some ⟨[[("ID", 1)]], none, none⟩)]⟩,
          some ⟨[("t", [10])], []⟩, none, 1, 0,
          [⟨[("t", some ⟨[[("ID", 1)]], none, none⟩)]⟩]⟩) :=
  c6_idempotent_termination
    (fun _ _ => (some ⟨[("t", [10])], []⟩, none)) (fun _ => none)
    ⟨(Table.Batch ⟨"t"⟩ ["ID"]).Get [⟨1, none⟩],
      some ⟨[("t", some ⟨[[("ID", 1)]], none, none⟩)]⟩,
      some ⟨[("t", [10])], []⟩, none, 1, 0,
      [⟨[("t", some ⟨[[("ID", 1)]], none, none⟩)]⟩]⟩
    none
    ⟨(Table.Batch ⟨"t"⟩ ["ID"]).Get [⟨1, none⟩],
      some ⟨[("t", some ⟨[[("ID", 1)]], none, none⟩)]⟩,
      some ⟨[("t", [10])], []⟩, none, 1, 0,
      [⟨[("t", some ⟨[[("ID", 1)]], none, none⟩)]⟩]⟩
    (by decide) (by decide)
    (fun _ _ => (some ⟨[("t", [99])], []⟩, none)) (fun _ => some (Err.decodeFailure 1))

/-- The cursor invariant of §3: before any page is fetched the cursor is
0, and with a current page it lies in `[0, len(currentPage.items)]`. -/
def cursorInv (itr : bgIter) : Prop :=
  (itr.output = none → itr.idx = 0) ∧
  ∀ out0, itr.output = some out0 →
    itr.idx ≤ (lookupItems out0.Responses itr.bg.batch.table.name).length

/-- Any non-panicking `fetch` outcome (entered with cursor 0) leaves the
batch unchanged and a current page with the cursor inside its bounds. -/
theorem fetch_inv_state (t : transportFunc) (u : unmarshalFunc) (itr : bgIter)
    (inp : BatchGetItemInput) (b : Bool) (em : Option Item) (itr' : bgIter)
    (hidx : itr.idx = 0)
    (h : bgIter.fetch t u itr inp = some (b, em, itr')) :
    itr'.bg = itr.bg ∧
    ∃ out1, itr'.output = some out1 ∧
      itr'.idx ≤ (lookupItems out1.Responses itr.bg.batch.table.name).length := by
  rcases hr : t itr.sentReqs.length inp with ⟨o, e⟩
  match o, hr with
  | none, hr =>
    rw [fetch_nil_output_panic t u itr inp e hr] at h
    exact absurd h (by simp)
  | some out1, hr =>
    by_cases hbad : e ≠ none ∨ lookupItems out1.Responses itr.bg.batch.table.name = []
    · rw [fetch_notfound t u itr inp out1 e hr hbad hidx] at h
      simp only [Option.some.injEq, Prod.mk.injEq] at h
      obtain ⟨-, -, hrec⟩ := h
      subst hrec
      exact ⟨rfl, out1, rfl, by simp [hidx]⟩
    · push_neg at hbad
      obtain ⟨he, hitems⟩ := hbad
      have hpos : 0 < (lookupItems out1.Responses itr.bg.batch.table.name).length :=
        List.length_pos.mpr hitems
      rw [he] at hr
      rw [fetch_decode t u itr inp out1
        (lookupItems out1.Responses itr.bg.batch.table.name) hr rfl hpos hidx] at h
      simp only [Option.some.injEq, Prod.mk.injEq] at h
      obtain ⟨-, -, hrec⟩ := h
      subst hrec
      refine ⟨rfl, out1, rfl, ?_⟩
      show 1 ≤ (lookupItems out1.Responses itr.bg.batch.table.name).length
      omega

/-- C7: the cursor invariant `0 ≤ idx ≤ len(currentPage.items)` is
preserved by every non-panicking `Next` call; no transport call is made
while buffered items remain; and whenever a current page exists and a
transport call is made, the cursor had reached exactly the page length. -/
theorem c7_cursor_bounds (t : transportFunc) (u : unmarshalFunc) (itr : bgIter)
    (hinv : cursorInv itr) :
    (∀ b em itr', bgIter.Next t u itr = some (b, em, itr') → cursorInv itr') ∧
    (∀ out0, itr.output = some out0 →
      itr.idx < (lookupItems out0.Responses itr.bg.batch.table.name).length →
      ∀ b em itr', bgIter.Next t u itr = some (b, em, itr') →
        itr'.sentReqs = itr.sentReqs) ∧
    (∀ b em itr', bgIter.Next t u itr = some (b, em, itr') →
      itr'.sentReqs ≠ itr.sentReqs →
      ∀ out0, itr.output = some out0 →
        itr.idx = (lookupItems out0.Responses itr.bg.batch.table.name).length) := by
  by_cases herr : itr.err = none
  · rcases hout : itr.output with _ | out0
    · -- never fetched: the cursor is 0 and the first fetch may happen
      have hidx0 := hinv.1 hout
      rcases hens : itr.ensureInput with _ | inp
      · have hnone := next_input_panic t u itr herr hout hens
        refine ⟨fun b em itr' h => ?_, fun out0 ho _ b em itr' h => ?_,
                fun b em itr' h _ out0 ho => ?_⟩ <;>
          (rw [hnone] at h; exact absurd h (by simp))
      · have hfe := next_firstfetch t u itr inp herr hout hens
        refine ⟨fun b em itr' h => ?_, fun out0 ho _ b em itr' h => ?_,
                fun b em itr' h _ out0 ho => ?_⟩
        · rw [hfe] at h
          obtain ⟨hbg, out1, ho1, hle⟩ :=
            fetch_inv_state t u ({ itr with input := some inp }) inp b em itr' hidx0 h
          refine ⟨fun hx => absurd (ho1.symm.trans hx) (by simp), fun out0' hx => ?_⟩
          rw [ho1] at hx
          obtain rfl : out1 = out0' := by injection hx
          rw [hbg]
          exact hle
        · exact absurd ho (by simp)
        · exact absurd ho (by simp)
    · by_cases hlt : itr.idx < (lookupItems out0.Responses itr.bg.batch.table.name).length
      · have hbuf := next_buffered t u itr out0 _ herr hout rfl hlt
        refine ⟨fun b em itr' h => ?_, fun out0' ho _ b em itr' h => ?_,
                fun b em itr' h hneq out0' ho => ?_⟩
        · rw [hbuf] at h
          simp only [Option.some.injEq, Prod.mk.injEq] at h
          obtain ⟨-, -, hrec⟩ := h
          subst hrec
          refine ⟨fun hx => absurd (hout.symm.trans hx) (by simp), fun out0' hx => ?_⟩
          have : itr.output = some out0' := hx
          rw [hout] at this
          obtain rfl : out0 = out0' := by injection this
          simpa using hlt
        · rw [hbuf] at h
          simp only [Option.some.injEq, Prod.mk.injEq] at h
          obtain ⟨-, -, hrec⟩ := h
          subst hrec
          rfl
        · rw [hbuf] at h
          simp only [Option.some.injEq, Prod.mk.injEq] at h
          obtain ⟨-, -, hrec⟩ := h
          subst hrec
          exact absurd rfl hneq
      · have hboundary : itr.idx = (lookupItems out0.Responses itr.bg.batch.table.name).length := by
          have := hinv.2 out0 hout
          omega
        rcases hens : itr.ensureInput with _ | inp
        · have hnone := next_input_panic_paged t u itr out0 herr hout hlt hens
          refine ⟨fun b em itr' h => ?_, fun out0' ho hl b em itr' h => ?_,
                  fun b em itr' h _ out0' ho => ?_⟩ <;>
            (rw [hnone] at h; exact absurd h (by simp))
        · by_cases hunp : out0.UnprocessedKeys.length = 0
          · have hex := next_exhausted t u itr out0 inp herr hout hlt hens hunp
            refine ⟨fun b em itr' h => ?_, fun out0' ho hl b em itr' h => ?_,
                    fun b em itr' h hneq out0' ho => ?_⟩
            · rw [hex] at h
              simp only [Option.some.injEq, Prod.mk.injEq] at h
              obtain ⟨-, -, hrec⟩ := h
              subst hrec
              exact ⟨fun hx => (hinv.1 hx), fun out0' hx => hinv.2 out0' hx⟩
            · obtain rfl : out0 = out0' := by injection ho
              exact absurd hl hlt
            · rw [hex] at h
              simp only [Option.some.injEq, Prod.mk.injEq] at h
              obtain ⟨-, -, hrec⟩ := h
              subst hrec
              exact absurd rfl hneq
          · have hunp' : out0.UnprocessedKeys ≠ [] := by
              simpa [List.length_eq_zero] using hunp
            have hrf := next_refetch t u itr out0 inp herr hout hlt hens hunp'
            refine ⟨fun b em itr' h => ?_, fun out0' ho hl b em itr' h => ?_,
                    fun b em itr' h hneq out0' ho => ?_⟩
            · rw [hrf] at h
              obtain ⟨hbg, out1, ho1, hle⟩ :=
                fetch_inv_state t u _ _ b em itr' rfl h
              refine ⟨fun hx => absurd (ho1.symm.trans hx) (by simp), fun out1' hx => ?_⟩
              rw [ho1] at hx
              obtain rfl : out1 = out1' := by injection hx
              rw [hbg]
              exact hle
            · obtain rfl : out0 = out0' := by injection ho
              exact absurd hl hlt
            · obtain rfl : out0 = out0' := by injection ho
              exact hboundary
  · have habs := next_err_absorb t u itr herr
    refine ⟨fun b em itr' h => ?_, fun out0 ho hl b em itr' h => ?_,
            fun b em itr' h hneq out0 ho => ?_⟩
    · rw [habs] at h
      simp only [Option.some.injEq, Prod.mk.injEq] at h
      obtain ⟨-, -, hrec⟩ := h
      subst hrec
      exact hinv
    · rw [habs] at h
      simp only [Option.some.injEq, Prod.mk.injEq] at h
      obtain ⟨-, -, hrec⟩ := h
      subst hrec
      rfl
    · rw [habs] at h
      simp only [Option.some.injEq, Prod.mk.injEq] at h
      obtain ⟨-, -, hrec⟩ := h
      subst hrec
      exact absurd rfl hneq

/-- C7 witness: a mid-page iterator (cursor 1 of 2) satisfies the cursor
invariant and the fetch-boundary properties. -/
theorem c7_witness :
    (∀ b em itr',
      bgIter.Next (fun _ _ => (some ⟨[("t", [30])], []⟩, none)) (fun _ => none)
        ⟨(Table.Batch ⟨"t"⟩ ["ID"]).Get [⟨1, none⟩, ⟨2, none⟩],
          some ⟨[("t", some ⟨[[("ID", 1)], [("ID", 2)]], none, none⟩)]⟩,
          some ⟨[("t", [10, 20])], []⟩, none, 1, 0,
          [⟨[("t", some ⟨[[("ID", 1)], [("ID", 2)]], none, none⟩)]⟩]⟩ =
        some (b, em, itr') → cursorInv itr') ∧
    (∀ out0,
      (⟨(Table.Batch ⟨"t"⟩ ["ID"]).Get [⟨1, none⟩, ⟨2, none⟩],
        some ⟨[("t", some ⟨[[("ID", 1)], [("ID", 2)]], none, none⟩)]⟩,
        some ⟨[("t", [10, 20])], []⟩, none, 1, 0,
        [⟨[("t", some ⟨[[("ID", 1)], [("ID", 2)]], none, none⟩)]⟩]⟩ : bgIter).output =
          some out0 →
      (1 : Nat) < (lookupItems out0.Responses "t").length →
      ∀ b em itr',
        bgIter.Next (fun _ _ => (some ⟨[("t", [30])], []⟩, none)) (fun _ => none)
          ⟨(Table.Batch ⟨"t"⟩ ["ID"]).Get [⟨1, none⟩, ⟨2, none⟩],
            some ⟨[("t", some ⟨[[("ID", 1)], [("ID", 2)]], none, none⟩)]⟩,
            some ⟨[("t", [10, 20])], []⟩, none, 1, 0,
            [⟨[("t", some ⟨[[("ID", 1)], [("ID", 2)]], none, none⟩)]⟩]⟩ =
          some (b, em, itr') →
        itr'.sentReqs = [⟨[("t", some ⟨[[("ID", 1)], [("ID", 2)]], none, none⟩)]⟩]) ∧
    (∀ b em itr',
      bgIter.Next (fun _ _ => (some ⟨[("t", [30])], []⟩, none)) (fun _ => none)
        ⟨(Table.Batch ⟨"t"⟩ ["ID"]).Get [⟨1, none⟩, ⟨2, none⟩],
          some ⟨[("t", some ⟨[[("ID", 1)], [("ID", 2)]], none, none⟩)]⟩,
          some ⟨[("t", [10, 20])], []⟩, none, 1, 0,
          [⟨[("t", some ⟨[[("ID", 1)], [("ID", 2)]], none, none⟩)]⟩]⟩ =
        some (b, em, itr') →
      itr'.sentReqs ≠ [⟨[("t", some ⟨[[("ID", 1)], [("ID", 2)]], none, none⟩)]⟩] →
      ∀ out0,
        (⟨(Table.Batch ⟨"t"⟩ ["ID"]).Get [⟨1, none⟩, ⟨2, none⟩],
          some ⟨[("t", some ⟨[[("ID", 1)], [("ID", 2)]], none, none⟩)]⟩,
          some ⟨[("t", [10, 20])], []⟩, none, 1, 0,
          [⟨[("t", some ⟨[[("ID", 1)], [("ID", 2)]], none, none⟩)]⟩]⟩ : bgIter).output =
            some out0 →
        (1 : Nat) = (lookupItems out0.Responses "t").length) :=
  c7_cursor_bounds (fun _ _ => (some ⟨[("t", [30])], []⟩, none)) (fun _ => none)
    ⟨(Table.Batch ⟨"t"⟩ ["ID"]).Get [⟨1, none⟩, ⟨2, none⟩],
      some ⟨[("t", some ⟨[[("ID", 1)], [("ID", 2)]], none, none⟩)]⟩,
      some ⟨[("t", [10, 20])], []⟩, none, 1, 0,
      [⟨[("t", some ⟨[[("ID", 1)], [("ID", 2)]], none, none⟩)]⟩]⟩
    (by refine ⟨fun hx => (nomatch hx), fun out0 hx => ?_⟩
        cases hx
        decide)

/-- Default page used with `List.getD` (never reached under the bounds in
scope). -/
def noPage : BatchGetItemOutput := { Responses := [], UnprocessedKeys := [] }

/-- All items of a list of response pages for one table, in transport
order. -/
def pagesItems (tname : String) (pages : List BatchGetItemOutput) : List Item :=
  (pages.map (fun p => lookupItems p.Responses tname)).flatten

/-- One unfolding step of the `All` loop. -/
theorem runAll_succ (t : transportFunc) (u : unmarshalFunc) (fuel : Nat)
    (itr : bgIter) (acc : List Item) :
    bgIter.runAll t u (fuel + 1) itr acc =
      match bgIter.Next t u itr with
      | none => .panicked
      | some (true, em, itr') => bgIter.runAll t u fuel itr' (acc ++ em.toList)
      | some (false, _, itr') => .done acc itr'.Err := rfl

/-- With at least one accumulated key, `input()` cannot panic. -/
theorem input_some_of_reqs_ne (bg : BatchGet) (h : bg.reqs ≠ []) :
    ∃ inp, bg.input = some inp := by
  have hkas : ∀ (reqs : List Query) (acc : Option KeysAndAttributes),
      reqs ≠ [] ∨ acc.isSome →
      (reqs.foldl
        (fun acc get =>
          match acc with
          | none => some get.keysAndAttribs
          | some k => some { k with Keys := k.Keys ++ [get.keys] })
        acc).isSome := by
    intro reqs
    induction reqs with
    | nil =>
      intro acc hacc
      rcases hacc with hacc | hacc
      · exact absurd rfl hacc
      · simpa using hacc
    | cons q qs ih =>
      intro acc _
      rw [List.foldl_cons]
      apply ih
      right
      cases acc <;> simp
  have := hkas bg.reqs none (Or.inl h)
  unfold BatchGet.input
  rcases hk : bg.reqs.foldl
      (fun acc get =>
        match acc with
        | none => some get.keysAndAttribs
        | some k => some { k with Keys := k.Keys ++ [get.keys] })
      none with _ | k
  · rw [hk] at this
    simp at this
  · rw [hk]
    by_cases hp : bg.projection ≠ "" <;> by_cases hc : bg.consistent <;> simp [hp, hc]

/-- Buffered step specialised to a successfully decoding item. -/
theorem next_buffered_ok (t : transportFunc) (u : unmarshalFunc) (itr : bgIter)
    (out0 : BatchGetItemOutput) (items : List Item)
    (hne : itr.err = none) (hout : itr.output = some out0)
    (hitems : lookupItems out0.Responses itr.bg.batch.table.name = items)
    (hlt : itr.idx < items.length)
    (hdecitem : u (items.get ⟨itr.idx, hlt⟩) = none) :
    bgIter.Next t u itr =
      some (true, some (items.get ⟨itr.idx, hlt⟩),
            { itr with err := none, idx := itr.idx + 1 }) := by
  rw [next_buffered t u itr out0 items hne hout hitems hlt, hdecitem]
  simp

/-- Fetch-and-decode step specialised to a successfully decoding item. -/
theorem fetch_decode_ok (t : transportFunc) (u : unmarshalFunc) (itr : bgIter)
    (inp : BatchGetItemInput) (out1 : BatchGetItemOutput) (items : List Item)
    (h : t itr.sentReqs.length inp = (some out1, none))
    (hitems : lookupItems out1.Responses itr.bg.batch.table.name = items)
    (hpos : 0 < items.length)
    (hidx : itr.idx = 0)
    (hdecitem : u (items.get ⟨0, hpos⟩) = none) :
    bgIter.fetch t u itr inp =
      some (true, some (items.get ⟨0, hpos⟩),
            { itr with output := some out1, err := none, idx := 1,
                       sentReqs := itr.sentReqs ++ [inp] }) := by
  rw [fetch_decode t u itr inp out1 items h hitems hpos hidx, hdecitem]
  simp

/-- Core run lemma: against a transport that serves a fixed script of
pages — each non-final page with unprocessed keys, the final page
without, every page non-empty, every item decoding — the `All` loop
started anywhere inside page `j` delivers the rest of page `j` followed
by all items of the later pages, in transport order, then finishes with
no error. -/
theorem runAll_script (tname : String) (pages : List BatchGetItemOutput)
    (t : transportFunc) (u : unmarshalFunc)
    (htr : ∀ n inp, n < pages.length → t n inp = (some (pages.getD n noPage), none))
    (hnz : ∀ p ∈ pages, lookupItems p.Responses tname ≠ [])
    (hmid : ∀ n, n + 1 < pages.length → (pages.getD n noPage).UnprocessedKeys ≠ [])
    (hlast : (pages.getD (pages.length - 1) noPage).UnprocessedKeys = [])
    (hdec : ∀ p ∈ pages, ∀ it ∈ lookupItems p.Responses tname, u it = none) :
    ∀ fuel j (itr : bgIter) (acc : List Item) (inp : BatchGetItemInput),
      itr.bg.batch.table.name = tname →
      itr.err = none →
      j < pages.length →
      itr.output = some (pages.getD j noPage) →
      itr.input = some inp →
      itr.sentReqs.length = j + 1 →
      itr.idx ≤ (lookupItems (pages.getD j noPage).Responses tname).length →
      ((lookupItems (pages.getD j noPage).Responses tname).length - itr.idx)
          + (pagesItems tname (pages.drop (j + 1))).length + 1 ≤ fuel →
      bgIter.runAll t u fuel itr acc =
        .done (acc ++ ((lookupItems (pages.getD j noPage).Responses tname).drop itr.idx
                  ++ pagesItems tname (pages.drop (j + 1)))) none := by
  intro fuel
  induction fuel with
  | zero =>
    intro j itr acc inp _ _ _ _ _ _ _ hfuel
    omega
  | succ fuel ih =>
    intro j itr acc inp hname herr hj hout hinp hsent hbound hfuel
    have hmemj : pages.getD j noPage ∈ pages := by
      rw [List.getD_eq_getElem pages noPage hj]
      exact List.getElem_mem hj
    by_cases hlt : itr.idx < (lookupItems (pages.getD j noPage).Responses tname).length
    · -- buffered in-page step
      have hdecok := hdec _ hmemj _
        (List.get_mem (lookupItems (pages.getD j noPage).Responses tname) itr.idx hlt)
      have hn := next_buffered_ok t u itr (pages.getD j noPage)
        (lookupItems (pages.getD j noPage).Responses tname) herr hout
        (by rw [hname]) hlt hdecok
      rw [runAll_succ, hn]
      show bgIter.runAll t u fuel ({ itr with err := none, idx := itr.idx + 1 })
          (acc ++ [(lookupItems (pages.getD j noPage).Responses tname).get ⟨itr.idx, hlt⟩]) = _
      rw [ih j ({ itr with err := none, idx := itr.idx + 1 })
        (acc ++ [(lookupItems (pages.getD j noPage).Responses tname).get ⟨itr.idx, hlt⟩])
        inp hname rfl hj hout hinp hsent
        (by show itr.idx + 1 ≤ _; omega)
        (by show (lookupItems (pages.getD j noPage).Responses tname).length - (itr.idx + 1)
              + (pagesItems tname (pages.drop (j + 1))).length + 1 ≤ fuel
            omega)]
      have hdropstep := List.drop_eq_getElem_cons hlt
      rw [List.get_eq_getElem, hdropstep]
      simp only [List.cons_append, List.append_assoc, List.singleton_append,
        List.nil_append]
    · -- page exhausted
      have hidxeq : itr.idx = (lookupItems (pages.getD j noPage).Responses tname).length := by
        omega
      have hens : itr.ensureInput = some inp := by
        simp [bgIter.ensureInput, hinp]
      have hdropidx :
          (lookupItems (pages.getD j noPage).Responses tname).drop itr.idx = [] := by
        rw [hidxeq]
        exact List.drop_length _
      by_cases hlastp : j + 1 = pages.length
      · -- final page: clean exhaustion
        have hunp0 : (pages.getD j noPage).UnprocessedKeys = [] := by
          have hj' : pages.length - 1 = j := by omega
          have h0 := hlast
          rw [hj'] at h0
          exact h0
        have hn := next_exhausted t u itr (pages.getD j noPage) inp herr hout
          (by rw [hname]; exact hlt) hens (by rw [hunp0]; rfl)
        rw [runAll_succ, hn]
        show RunOutcome.done acc ({ itr with input := some inp } : bgIter).Err = _
        have hdropp : pages.drop (j + 1) = [] := by
          rw [hlastp]
          exact List.drop_length pages
        rw [hdropidx, hdropp]
        show RunOutcome.done acc itr.err = _
        rw [herr]
        simp [pagesItems]
      · -- middle page: re-fetch the next one
        have hj1 : j + 1 < pages.length := by omega
        have hunpj := hmid j hj1
        have hn := next_refetch t u itr (pages.getD j noPage) inp herr hout
          (by rw [hname]; exact hlt) hens hunpj
        have hmem1 : pages.getD (j + 1) noPage ∈ pages := by
          rw [List.getD_eq_getElem pages noPage hj1]
          exact List.getElem_mem hj1
        have hne1 : lookupItems (pages.getD (j + 1) noPage).Responses tname ≠ [] :=
          hnz _ hmem1
        have hpos1 : 0 < (lookupItems (pages.getD (j + 1) noPage).Responses tname).length :=
          List.length_pos.mpr hne1
        have hdec1 := hdec _ hmem1 _
          (List.get_mem (lookupItems (pages.getD (j + 1) noPage).Responses tname) 0 hpos1)
        have ht1 : t itr.sentReqs.length
            ({ RequestItems := (pages.getD j noPage).UnprocessedKeys } : BatchGetItemInput) =
            (some (pages.getD (j + 1) noPage), none) := by
          rw [hsent]
          exact htr (j + 1) _ hj1
        have hfd := fetch_decode_ok t u
          ({ itr with input := some { RequestItems := (pages.getD j noPage).UnprocessedKeys },
                      idx := 0, backoffs := itr.backoffs + 1 })
          { RequestItems := (pages.getD j noPage).UnprocessedKeys }
          (pages.getD (j + 1) noPage)
          (lookupItems (pages.getD (j + 1) noPage).Responses tname)
          ht1 (by rw [hname]) hpos1 rfl hdec1
        rw [runAll_succ, hn, hfd]
        have hdropsplit : pages.drop (j + 1) =
            pages.getD (j + 1) noPage :: pages.drop (j + 1 + 1) := by
          rw [List.getD_eq_getElem pages noPage hj1]
          exact List.drop_eq_getElem_cons hj1
        have hpi : pagesItems tname (pages.getD (j + 1) noPage :: pages.drop (j + 1 + 1)) =
            lookupItems (pages.getD (j + 1) noPage).Responses tname
              ++ pagesItems tname (pages.drop (j + 1 + 1)) := by
          simp [pagesItems]
        have hlen1 : (pagesItems tname (pages.drop (j + 1))).length =
            (lookupItems (pages.getD (j + 1) noPage).Responses tname).length
              + (pagesItems tname (pages.drop (j + 1 + 1))).length := by
          rw [hdropsplit, hpi]
          simp
        have hsent3 : (itr.sentReqs ++
            [({ RequestItems := (pages.getD j noPage).UnprocessedKeys } : BatchGetItemInput)]).length
              = j + 1 + 1 := by
          simp [hsent]
        show bgIter.runAll t u fuel
            ({ itr with input := some { RequestItems := (pages.getD j noPage).UnprocessedKeys },
                        output := some (pages.getD (j + 1) noPage), err := none, idx := 1,
                        backoffs := itr.backoffs + 1, sentReqs := itr.sentReqs ++
                          [{ RequestItems := (pages.getD j noPage).UnprocessedKeys }] })
            (acc ++ [(lookupItems (pages.getD (j + 1) noPage).Responses tname).get ⟨0, hpos1⟩])
            = _
        rw [ih (j + 1)
          ({ itr with input := some { RequestItems := (pages.getD j noPage).UnprocessedKeys },
                      output := some (pages.getD (j + 1) noPage), err := none, idx := 1,
                      backoffs := itr.backoffs + 1, sentReqs := itr.sentReqs ++
                        [{ RequestItems := (pages.getD j noPage).UnprocessedKeys }] })
          (acc ++ [(lookupItems (pages.getD (j + 1) noPage).Responses tname).get ⟨0, hpos1⟩])
          { RequestItems := (pages.getD j noPage).UnprocessedKeys }
          hname rfl hj1 rfl rfl hsent3 hpos1
          (by show (lookupItems (pages.getD (j + 1) noPage).Responses tname).length - 1
                + (pagesItems tname (pages.drop (j + 1 + 1))).length + 1 ≤ fuel
              omega)]
        have hcons1 : lookupItems (pages.getD (j + 1) noPage).Responses tname =
            (lookupItems (pages.getD (j + 1) noPage).Responses tname).get ⟨0, hpos1⟩
              :: (lookupItems (pages.getD (j + 1) noPage).Responses tname).drop 1 := by
          rw [List.get_eq_getElem]
          exact (List.drop_zero _).symm.trans (List.drop_eq_getElem_cons hpos1)
        conv_rhs => rw [hdropidx, hdropsplit, hpi, hcons1]
        simp

/-- C3 counterexample: one key; the transport returns all 1 item over two
pages (first page: zero items with the key marked unprocessed, second
page: the item, no unprocessed keys) with no decode errors. The claim
says `All` appends exactly 1 item and `Err()` is nil — but the zero-item
first page trips the not-found branch: `All` delivers nothing and `Err()`
is `ErrNotFound`. -/
theorem c3_counterexample :
    bgIter.runAll
      (fun n _ => (some (if n = 0
          then (⟨[("t", [])], [("t", some ⟨[[("ID", 1)]], none, none⟩)]⟩ : BatchGetItemOutput)
          else ⟨[("t", [20])], []⟩), none))
      (fun _ => none) 5
      (newBGIter ((Table.Batch ⟨"t"⟩ ["ID"]).Get [⟨1, none⟩])
        ((Table.Batch ⟨"t"⟩ ["ID"]).Get [⟨1, none⟩]).err)
      [] = .done [] (some ErrNotFound) := by
  decide

/-- C3 amended: for a batch of N distinct valid keys, when the transport
returns all N items over one or more pages with no decode errors, the
final page has an empty unprocessed-keys set — and, additionally, EVERY
fetched page contains at least one item — `All` (built on repeated `Next`
then `Err`) appends exactly the N decoded items in the order the
transport returned them, and `Err()` is nil afterward. (Without the
every-page-non-empty proviso a zero-item page trips the not-found branch,
see the counterexample.) -/
theorem c3_all_delivers_all_items (bg : BatchGet) (t : transportFunc) (u : unmarshalFunc)
    (pages : List BatchGetItemOutput) (N fuel : Nat)
    (hbgerr : bg.err = none)
    (_hnodup : bg.reqs.Nodup)
    (hreqs : bg.reqs.length = N)
    (hpages : pages ≠ [])
    (htr : ∀ n inp, n < pages.length → t n inp = (some (pages.getD n noPage), none))
    (hnz : ∀ p ∈ pages, lookupItems p.Responses bg.batch.table.name ≠ [])
    (hmid : ∀ n, n + 1 < pages.length → (pages.getD n noPage).UnprocessedKeys ≠ [])
    (hlast : (pages.getD (pages.length - 1) noPage).UnprocessedKeys = [])
    (hdec : ∀ p ∈ pages, ∀ it ∈ lookupItems p.Responses bg.batch.table.name, u it = none)
    (hcount : (pagesItems bg.batch.table.name pages).length = N)
    (hfuel : N + 1 ≤ fuel) :
    BatchGet.All t u fuel bg = .done (pagesItems bg.batch.table.name pages) none := by
  have h0lt : 0 < pages.length := List.length_pos.mpr hpages
  have hmem0 : pages.getD 0 noPage ∈ pages := by
    rw [List.getD_eq_getElem pages noPage h0lt]
    exact List.getElem_mem h0lt
  have hpos0 : 0 < (lookupItems (pages.getD 0 noPage).Responses bg.batch.table.name).length :=
    List.length_pos.mpr (hnz _ hmem0)
  have hsplit0 : pages = pages.getD 0 noPage :: pages.drop (0 + 1) := by
    rw [List.getD_eq_getElem pages noPage h0lt]
    exact (List.drop_zero pages).symm.trans (List.drop_eq_getElem_cons h0lt)
  have hpisplit : pagesItems bg.batch.table.name pages =
      lookupItems (pages.getD 0 noPage).Responses bg.batch.table.name
        ++ pagesItems bg.batch.table.name (pages.drop (0 + 1)) := by
    conv_lhs => rw [hsplit0]
    simp [pagesItems]
  have hlenN : N = (lookupItems (pages.getD 0 noPage).Responses bg.batch.table.name).length
      + (pagesItems bg.batch.table.name (pages.drop (0 + 1))).length := by
    rw [← hcount, hpisplit]
    simp
  have hreqsne : bg.reqs ≠ [] := by
    intro hx
    rw [hx] at hreqs
    simp at hreqs
    omega
  obtain ⟨inp0, hinp0⟩ := input_some_of_reqs_ne bg hreqsne
  obtain ⟨f, rfl⟩ : ∃ f, fuel = f + 1 := ⟨fuel - 1, by omega⟩
  have hens : (newBGIter bg none).ensureInput = some inp0 := by
    simp [newBGIter, bgIter.ensureInput, hinp0]
  have hdec0 := hdec _ hmem0 _
    (List.get_mem (lookupItems (pages.getD 0 noPage).Responses bg.batch.table.name) 0 hpos0)
  have hnext : bgIter.Next t u (newBGIter bg bg.err) =
      some (true,
        some ((lookupItems (pages.getD 0 noPage).Responses bg.batch.table.name).get ⟨0, hpos0⟩),
        ⟨bg, some inp0, some (pages.getD 0 noPage), none, 1, 0, [inp0]⟩) := by
    rw [hbgerr]
    rw [next_firstfetch t u (newBGIter bg none) inp0 rfl rfl hens]
    exact fetch_decode_ok t u ({ newBGIter bg none with input := some inp0 }) inp0
      (pages.getD 0 noPage)
      (lookupItems (pages.getD 0 noPage).Responses bg.batch.table.name)
      (htr 0 inp0 h0lt) rfl hpos0 rfl hdec0
  have hrun := runAll_script bg.batch.table.name pages t u htr hnz hmid hlast hdec f 0
    ⟨bg, some inp0, some (pages.getD 0 noPage), none, 1, 0, [inp0]⟩
    [(lookupItems (pages.getD 0 noPage).Responses bg.batch.table.name).get ⟨0, hpos0⟩]
    inp0 rfl rfl h0lt rfl rfl rfl hpos0
    (by show (lookupItems (pages.getD 0 noPage).Responses bg.batch.table.name).length - 1
          + (pagesItems bg.batch.table.name (pages.drop (0 + 1))).length + 1 ≤ f
        omega)
  unfold BatchGet.All
  rw [runAll_succ, hnext]
  show bgIter.runAll t u f
      ⟨bg, some inp0, some (pages.getD 0 noPage), none, 1, 0, [inp0]⟩
      [(lookupItems (pages.getD 0 noPage).Responses bg.batch.table.name).get ⟨0, hpos0⟩] = _
  rw [hrun]
  have hcons0 : lookupItems (pages.getD 0 noPage).Responses bg.batch.table.name =
      (lookupItems (pages.getD 0 noPage).Responses bg.batch.table.name).get ⟨0, hpos0⟩
        :: (lookupItems (pages.getD 0 noPage).Responses bg.batch.table.name).drop 1 := by
    rw [List.get_eq_getElem]
    exact (List.drop_zero _).symm.trans (List.drop_eq_getElem_cons hpos0)
  conv_rhs => rw [hpisplit, hcons0]
  simp

/-- C3 amended witness: three keys; the transport serves two items on the
first page (marking the third key unprocessed) and the third item on the
second page; `All` delivers all three in transport order with no error. -/
theorem c3_witness :
    BatchGet.All
      (fun n _ => (some (([(⟨[("t", [10, 20])], [("t", some ⟨[[("ID", 7)]], none, none⟩)]⟩ : BatchGetItemOutput),
        ⟨[("t", [30])], []⟩] : List BatchGetItemOutput).getD n noPage), none))
      (fun _ => none) 4
      ((Table.Batch ⟨"t"⟩ ["ID"]).Get [⟨1, none⟩, ⟨42, none⟩, ⟨7, none⟩]) =
    .done (pagesItems "t"
      [⟨[("t", [10, 20])], [("t", some ⟨[[("ID", 7)]], none, none⟩)]⟩,
       ⟨[("t", [30])], []⟩]) none :=
  c3_all_delivers_all_items
    ((Table.Batch ⟨"t"⟩ ["ID"]).Get [⟨1, none⟩, ⟨42, none⟩, ⟨7, none⟩])
    (fun n _ => (some (([(⟨[("t", [10, 20])], [("t", some ⟨[[("ID", 7)]], none, none⟩)]⟩ : BatchGetItemOutput),
      ⟨[("t", [30])], []⟩] : List BatchGetItemOutput).getD n noPage), none))
    (fun _ => none)
    [⟨[("t", [10, 20])], [("t", some ⟨[[("ID", 7)]], none, none⟩)]⟩,
     ⟨[("t", [30])], []⟩]
    3 4 rfl (by decide) (by decide) (by decide)
    (fun _ _ _ => rfl)
    (by decide)
    (fun n h => by
      have hn0 : n = 0 := by
        simp at h
        omega
      subst hn0
      decide)
    (by decide)
    (fun p hp it hit => rfl)
    (by decide) (by decide)
